import Mathlib

/-!
Verification development for the MagicBG background-removal app.

The Express segmentation engine (`processInstant` in `BackgroundRemover.tsx`)
is embedded over exact real arithmetic: canvas pixel bytes become real-valued
entries of a flat RGBA list, and the JavaScript `Math.sqrt` / arithmetic on
numbers is modelled by the corresponding operations on `ℝ`.

The orchestration layer (file validation in `processFile`, object-URL
lifecycle in `handleFileChange` / `processFileDeep` / `reset`, and the
suggested output filename) is embedded as computable state-transition
functions over a small state type, with `URL.createObjectURL` /
`URL.revokeObjectURL` modelled as a fresh-handle allocator.
-/

set_option maxHeartbeats 1000000

/-- A decoded image buffer: `data` is the flat RGBA byte list of
`getImageData`, indexed as `(y * width + x) * 4 + channel`. -/
structure ImageData where
  width : ℕ
  height : ℕ
  data : List ℝ

/-- Red channel of the corner-averaged background estimate
(`bgR = rSum / 4` over the four corners `[0,0]`, `[w-1,0]`, `[0,h-1]`,
`[w-1,h-1]`, reading `data[(y*w+x)*4]`). -/
noncomputable def bgR (img : ImageData) : ℝ :=
  (img.data.getD ((0 * img.width + 0) * 4) 0 +
   img.data.getD ((0 * img.width + (img.width - 1)) * 4) 0 +
   img.data.getD (((img.height - 1) * img.width + 0) * 4) 0 +
   img.data.getD (((img.height - 1) * img.width + (img.width - 1)) * 4) 0) / 4

/-- Green channel of the background estimate (`data[idx + 1]`). -/
noncomputable def bgG (img : ImageData) : ℝ :=
  (img.data.getD ((0 * img.width + 0) * 4 + 1) 0 +
   img.data.getD ((0 * img.width + (img.width - 1)) * 4 + 1) 0 +
   img.data.getD (((img.height - 1) * img.width + 0) * 4 + 1) 0 +
   img.data.getD (((img.height - 1) * img.width + (img.width - 1)) * 4 + 1) 0) / 4

/-- Blue channel of the background estimate (`data[idx + 2]`). -/
noncomputable def bgB (img : ImageData) : ℝ :=
  (img.data.getD ((0 * img.width + 0) * 4 + 2) 0 +
   img.data.getD ((0 * img.width + (img.width - 1)) * 4 + 2) 0 +
   img.data.getD (((img.height - 1) * img.width + 0) * 4 + 2) 0 +
   img.data.getD (((img.height - 1) * img.width + (img.width - 1)) * 4 + 2) 0) / 4

/-- Euclidean RGB distance of the pixel starting at `base` from the
background estimate:
`dist = sqrt((r - bgR)^2 + (g - bgG)^2 + (b - bgB)^2)`. -/
noncomputable def distAt (img : ImageData) (base : ℕ) : ℝ :=
  Real.sqrt ((img.data.getD base 0 - bgR img) ^ 2 +
             (img.data.getD (base + 1) 0 - bgG img) ^ 2 +
             (img.data.getD (base + 2) 0 - bgB img) ^ 2)

/-- The alpha value written for one pixel:
`if (dist < tol) { const alpha = Math.max(0, Math.min(255, (dist / tol) * 255
* (1 / (fth || 1)))); data[i + 3] = dist < tol / 1.5 ? 0 : alpha; }` and the
source alpha `a` is kept when `dist ≥ tol`.  The JavaScript `fth || 1` is 1
exactly when `fth = 0`, and `fth` itself otherwise. -/
noncomputable def newAlpha (dist tol fth a : ℝ) : ℝ :=
  if dist < tol then
    (if dist < tol / 1.5 then 0
     else max 0 (min 255 (dist / tol * 255 * (1 / (if fth = 0 then 1 else fth)))))
  else a

/-- The Express engine `processInstant`: same dimensions, each alpha entry
(index `i + 3` for the pixel beginning at `i`) rewritten by `newAlpha`,
all other entries left as in the source. -/
noncomputable def processInstant (img : ImageData) (tol fth : ℝ) : ImageData :=
  { width := img.width
    height := img.height
    data := (List.range img.data.length).map fun j =>
      if j % 4 = 3 then
        newAlpha (distAt img (j - 3)) tol fth (img.data.getD j 0)
      else img.data.getD j 0 }

/-- Alpha formula for the ramp zone exactly as the spec words it:
`clamp(0, 255, (dist / tolerance) * 255 * (1 / max(feather, 1)))`.  Kept
separate from the code-derived `newAlpha` so the two can be compared. -/
noncomputable def specRampAlpha (dist tol fth : ℝ) : ℝ :=
  max 0 (min 255 (dist / tol * 255 * (1 / max fth 1)))

theorem getD_map_range (f : ℕ → ℝ) {n j : ℕ} (h : j < n) :
    ((List.range n).map f).getD j 0 = f j := by
  rw [List.getD_eq_getElem?_getD, List.getElem?_map, List.getElem?_range h]
  rfl

theorem processInstant_data_getD (img : ImageData) (tol fth : ℝ) {j : ℕ}
    (h : j < img.data.length) :
    (processInstant img tol fth).data.getD j 0 =
      if j % 4 = 3 then
        newAlpha (distAt img (j - 3)) tol fth (img.data.getD j 0)
      else img.data.getD j 0 := by
  unfold processInstant
  exact getD_map_range _ h

/-- 3×1 test image: black corner pixels, middle pixel (25,0,0), all opaque. -/
noncomputable def rampImg : ImageData :=
  ⟨3, 1, [0, 0, 0, 255, 25, 0, 0, 255, 0, 0, 0, 255]⟩

/-- 3×1 test image: black corner pixels, middle pixel (25,0,0) with source
alpha 50 (translucent). -/
noncomputable def translucentImg : ImageData :=
  ⟨3, 1, [0, 0, 0, 255, 25, 0, 0, 50, 0, 0, 0, 255]⟩

/-- 3×1 test image: black corner pixels, middle pixel (200,0,0) with source
alpha 123, far from the background estimate. -/
noncomputable def farImg : ImageData :=
  ⟨3, 1, [0, 0, 0, 255, 200, 0, 0, 123, 0, 0, 0, 255]⟩

/-- 2×2 test image: all four pixels (200,200,200), all opaque. -/
noncomputable def flatImg : ImageData :=
  ⟨2, 2, [200, 200, 200, 255, 200, 200, 200, 255,
          200, 200, 200, 255, 200, 200, 200, 255]⟩

/-- 1×1 image whose data list has 8 entries instead of the 4 required by
width × height × 4: two all-black opaque pixel groups. -/
noncomputable def mismImg : ImageData := ⟨1, 1, [0, 0, 0, 255, 0, 0, 0, 255]⟩

theorem bgR_rampImg : bgR rampImg = 0 := by
  show ((0 : ℝ) + 0 + 0 + 0) / 4 = 0
  norm_num

theorem bgG_rampImg : bgG rampImg = 0 := by
  show ((0 : ℝ) + 0 + 0 + 0) / 4 = 0
  norm_num

theorem bgB_rampImg : bgB rampImg = 0 := by
  show ((0 : ℝ) + 0 + 0 + 0) / 4 = 0
  norm_num

theorem distAt_rampImg : distAt rampImg 4 = 25 := by
  have h : distAt rampImg 4 =
      Real.sqrt (((25 : ℝ) - bgR rampImg) ^ 2 + ((0 : ℝ) - bgG rampImg) ^ 2 +
        ((0 : ℝ) - bgB rampImg) ^ 2) := rfl
  rw [h, bgR_rampImg, bgG_rampImg, bgB_rampImg]
  have h2 : ((25 : ℝ) - 0) ^ 2 + ((0 : ℝ) - 0) ^ 2 + ((0 : ℝ) - 0) ^ 2 = 25 ^ 2 := by
    norm_num
  rw [h2, Real.sqrt_sq (by norm_num : (0 : ℝ) ≤ 25)]

theorem rampImg_alpha_half : (processInstant rampImg 30 0.5).data.getD 7 0 = 255 := by
  rw [processInstant_data_getD rampImg 30 0.5 (by norm_num [rampImg])]
  norm_num [distAt_rampImg, newAlpha,
    (show rampImg.data.getD 7 0 = (255 : ℝ) from rfl), min_def, max_def]

theorem rampImg_alpha_one : (processInstant rampImg 30 1).data.getD 7 0 = 212.5 := by
  rw [processInstant_data_getD rampImg 30 1 (by norm_num [rampImg])]
  norm_num [distAt_rampImg, newAlpha,
    (show rampImg.data.getD 7 0 = (255 : ℝ) from rfl), min_def, max_def]

theorem rampImg_alpha_two : (processInstant rampImg 30 2).data.getD 7 0 = 106.25 := by
  rw [processInstant_data_getD rampImg 30 2 (by norm_num [rampImg])]
  norm_num [distAt_rampImg, newAlpha,
    (show rampImg.data.getD 7 0 = (255 : ℝ) from rfl), min_def, max_def]

theorem bgR_translucentImg : bgR translucentImg = 0 := by
  show ((0 : ℝ) + 0 + 0 + 0) / 4 = 0
  norm_num

theorem bgG_translucentImg : bgG translucentImg = 0 := by
  show ((0 : ℝ) + 0 + 0 + 0) / 4 = 0
  norm_num

theorem bgB_translucentImg : bgB translucentImg = 0 := by
  show ((0 : ℝ) + 0 + 0 + 0) / 4 = 0
  norm_num

theorem distAt_translucentImg : distAt translucentImg 4 = 25 := by
  have h : distAt translucentImg 4 =
      Real.sqrt (((25 : ℝ) - bgR translucentImg) ^ 2 +
        ((0 : ℝ) - bgG translucentImg) ^ 2 + ((0 : ℝ) - bgB translucentImg) ^ 2) := rfl
  rw [h, bgR_translucentImg, bgG_translucentImg, bgB_translucentImg]
  have h2 : ((25 : ℝ) - 0) ^ 2 + ((0 : ℝ) - 0) ^ 2 + ((0 : ℝ) - 0) ^ 2 = 25 ^ 2 := by
    norm_num
  rw [h2, Real.sqrt_sq (by norm_num : (0 : ℝ) ≤ 25)]

theorem translucentImg_alpha_one :
    (processInstant translucentImg 30 1).data.getD 7 0 = 212.5 := by
  rw [processInstant_data_getD translucentImg 30 1 (by norm_num [translucentImg])]
  norm_num [distAt_translucentImg, newAlpha,
    (show translucentImg.data.getD 7 0 = (50 : ℝ) from rfl), min_def, max_def]

theorem bgR_farImg : bgR farImg = 0 := by
  show ((0 : ℝ) + 0 + 0 + 0) / 4 = 0
  norm_num

theorem bgG_farImg : bgG farImg = 0 := by
  show ((0 : ℝ) + 0 + 0 + 0) / 4 = 0
  norm_num

theorem bgB_farImg : bgB farImg = 0 := by
  show ((0 : ℝ) + 0 + 0 + 0) / 4 = 0
  norm_num

theorem distAt_farImg : distAt farImg 4 = 200 := by
  have h : distAt farImg 4 =
      Real.sqrt (((200 : ℝ) - bgR farImg) ^ 2 + ((0 : ℝ) - bgG farImg) ^ 2 +
        ((0 : ℝ) - bgB farImg) ^ 2) := rfl
  rw [h, bgR_farImg, bgG_farImg, bgB_farImg]
  have h2 : ((200 : ℝ) - 0) ^ 2 + ((0 : ℝ) - 0) ^ 2 + ((0 : ℝ) - 0) ^ 2 = 200 ^ 2 := by
    norm_num
  rw [h2, Real.sqrt_sq (by norm_num : (0 : ℝ) ≤ 200)]

theorem bgR_flatImg : bgR flatImg = 200 := by
  show ((200 : ℝ) + 200 + 200 + 200) / 4 = 200
  norm_num

theorem bgG_flatImg : bgG flatImg = 200 := by
  show ((200 : ℝ) + 200 + 200 + 200) / 4 = 200
  norm_num

theorem bgB_flatImg : bgB flatImg = 200 := by
  show ((200 : ℝ) + 200 + 200 + 200) / 4 = 200
  norm_num

theorem distAt_flatImg : distAt flatImg 0 = 0 := by
  have h : distAt flatImg 0 =
      Real.sqrt (((200 : ℝ) - bgR flatImg) ^ 2 + ((200 : ℝ) - bgG flatImg) ^ 2 +
        ((200 : ℝ) - bgB flatImg) ^ 2) := rfl
  rw [h, bgR_flatImg, bgG_flatImg, bgB_flatImg]
  norm_num

theorem bgR_mismImg : bgR mismImg = 0 := by
  show ((0 : ℝ) + 0 + 0 + 0) / 4 = 0
  norm_num

theorem bgG_mismImg : bgG mismImg = 0 := by
  show ((0 : ℝ) + 0 + 0 + 0) / 4 = 0
  norm_num

theorem bgB_mismImg : bgB mismImg = 0 := by
  show ((0 : ℝ) + 0 + 0 + 0) / 4 = 0
  norm_num

theorem distAt_mismImg : distAt mismImg 4 = 0 := by
  have h : distAt mismImg 4 =
      Real.sqrt (((0 : ℝ) - bgR mismImg) ^ 2 + ((0 : ℝ) - bgG mismImg) ^ 2 +
        ((0 : ℝ) - bgB mismImg) ^ 2) := rfl
  rw [h, bgR_mismImg, bgG_mismImg, bgB_mismImg]
  norm_num

/-- Claimed formula of C1 fails on the code: at the middle pixel of
`rampImg` (distance 25, in the ramp zone for tolerance 30) and fractional
feather 0.5, the engine writes alpha 255 (the JavaScript `fth || 1` divides
by 0.5, amplifying the ramp), while the spec's
`clamp(0, 255, (dist / tol) * 255 * (1 / max(feather, 1)))` gives 212.5. -/
theorem processInstant_spec_ramp_cex :
    0 < (30 : ℝ) ∧ 0 ≤ (0.5 : ℝ) ∧
    30 / 1.5 ≤ distAt rampImg 4 ∧ distAt rampImg 4 < 30 ∧
    (processInstant rampImg 30 0.5).data.getD 7 0 = 255 ∧
    specRampAlpha (distAt rampImg 4) 30 0.5 = 212.5 ∧
    (255 : ℝ) ≠ 212.5 := by
  refine ⟨by norm_num, by norm_num, ?_, ?_, rampImg_alpha_half, ?_, by norm_num⟩
  · rw [distAt_rampImg]; norm_num
  · rw [distAt_rampImg]; norm_num
  · rw [distAt_rampImg]
    norm_num [specRampAlpha, min_def, max_def]

/-- C1 (amended): for every pixel in the ramp zone
(`tolerance / 1.5 ≤ dist < tolerance`), the Express engine sets the output
alpha to `clamp(0, 255, (dist / tolerance) * 255 * (1 / feather))` when
`feather ≠ 0`, and with divisor 1 when `feather = 0` — the JavaScript
`feather || 1`, which matches the spec's `max(feather, 1)` only for
`feather = 0` or `feather ≥ 1`. -/
theorem processInstant_ramp_formula (img : ImageData) (tol fth : ℝ) (j : ℕ)
    (htol : 0 < tol) (hf : 0 ≤ fth) (hj : j % 4 = 3) (hlen : j < img.data.length)
    (hlo : tol / 1.5 ≤ distAt img (j - 3)) (hhi : distAt img (j - 3) < tol) :
    (processInstant img tol fth).data.getD j 0 =
      max 0 (min 255 (distAt img (j - 3) / tol * 255 *
        (1 / (if fth = 0 then 1 else fth)))) := by
  rw [processInstant_data_getD img tol fth hlen, if_pos hj]
  unfold newAlpha
  rw [if_pos hhi, if_neg (not_lt.mpr hlo)]

/-- Witness for the amended C1: middle pixel of `rampImg` at tolerance 30,
feather 2 — ramp-zone alpha follows the code's formula. -/
theorem processInstant_ramp_formula_witness :
    (processInstant rampImg 30 2).data.getD 7 0 =
      max 0 (min 255 (distAt rampImg (7 - 3) / 30 * 255 *
        (1 / (if (2 : ℝ) = 0 then 1 else 2)))) :=
  processInstant_ramp_formula rampImg 30 2 7 (by norm_num) (by norm_num)
    (by norm_num) (by norm_num [rampImg]) (by norm_num [distAt_rampImg])
    (by norm_num [distAt_rampImg])

/-- C2 is false as stated: raising feather from 1 to 2 at the ramp-zone
middle pixel of `rampImg` (tolerance 30) drops the output alpha from 212.5
to 106.25, so alpha under the larger feather is not ≥ alpha under the
smaller one. -/
theorem processInstant_feather_cex :
    0 < (30 : ℝ) ∧ (1 : ℝ) < 2 ∧
    30 / 1.5 ≤ distAt rampImg 4 ∧ distAt rampImg 4 < 30 ∧
    ¬ ((processInstant rampImg 30 1).data.getD 7 0 ≤
        (processInstant rampImg 30 2).data.getD 7 0) := by
  refine ⟨by norm_num, by norm_num, ?_, ?_, ?_⟩
  · rw [distAt_rampImg]; norm_num
  · rw [distAt_rampImg]; norm_num
  · rw [rampImg_alpha_one, rampImg_alpha_two]; norm_num

/-- C2 (amended): for every fixed image and tolerance > 0 and every pair of
positive feather values `f1 < f2`, each ramp-zone pixel's output alpha under
`f2` is less than or equal to its alpha under `f1` (increasing positive
feather never increases ramp-zone alpha; feather 0 behaves like feather 1,
so monotonicity does not extend across 0). -/
theorem processInstant_feather_antitone (img : ImageData) (tol f1 f2 : ℝ) (j : ℕ)
    (htol : 0 < tol) (hf1 : 0 < f1) (h12 : f1 < f2)
    (hj : j % 4 = 3) (hlen : j < img.data.length)
    (hlo : tol / 1.5 ≤ distAt img (j - 3)) (hhi : distAt img (j - 3) < tol) :
    (processInstant img tol f2).data.getD j 0 ≤
      (processInstant img tol f1).data.getD j 0 := by
  rw [processInstant_data_getD img tol f2 hlen,
    processInstant_data_getD img tol f1 hlen, if_pos hj, if_pos hj]
  unfold newAlpha
  rw [if_pos hhi, if_pos hhi, if_neg (not_lt.mpr hlo), if_neg (not_lt.mpr hlo),
    if_neg (ne_of_gt hf1), if_neg (ne_of_gt (lt_trans hf1 h12))]
  have hd : 0 ≤ distAt img (j - 3) := Real.sqrt_nonneg _
  have hX : 0 ≤ distAt img (j - 3) / tol * 255 :=
    mul_nonneg (div_nonneg hd htol.le) (by norm_num)
  have hinv : 1 / f2 ≤ 1 / f1 := one_div_le_one_div_of_le hf1 h12.le
  exact max_le_max le_rfl (min_le_min le_rfl (mul_le_mul_of_nonneg_left hinv hX))

/-- Witness for the amended C2: feathers 1 < 2 at the ramp-zone middle pixel
of `rampImg`, tolerance 30. -/
theorem processInstant_feather_antitone_witness :
    (processInstant rampImg 30 2).data.getD 7 0 ≤
      (processInstant rampImg 30 1).data.getD 7 0 :=
  processInstant_feather_antitone rampImg 30 1 2 7 (by norm_num) (by norm_num)
    (by norm_num) (by norm_num) (by norm_num [rampImg])
    (by norm_num [distAt_rampImg]) (by norm_num [distAt_rampImg])

/-- C3 is false as stated: the middle pixel of `translucentImg` has source
alpha 50, lies in the ramp zone for tolerance 30, and the engine overwrites
its alpha with 212.5 — the algorithm raised alpha. -/
theorem processInstant_raises_alpha_cex :
    0 < (30 : ℝ) ∧ 0 ≤ (1 : ℝ) ∧
    translucentImg.data.getD 7 0 = 50 ∧
    (processInstant translucentImg 30 1).data.getD 7 0 = 212.5 ∧
    ¬ ((processInstant translucentImg 30 1).data.getD 7 0 ≤
        translucentImg.data.getD 7 0) := by
  refine ⟨by norm_num, by norm_num, rfl, translucentImg_alpha_one, ?_⟩
  rw [translucentImg_alpha_one, (show translucentImg.data.getD 7 0 = (50 : ℝ) from rfl)]
  norm_num

/-- C3 (amended): at every pixel whose source alpha is 255 (fully opaque),
the Express engine's output alpha is at most the source alpha — any alpha
the engine writes lies in [0, 255], so the guarantee holds for opaque
sources, but a translucent source pixel in the ramp zone can have its alpha
raised. -/
theorem processInstant_alpha_le_of_opaque (img : ImageData) (tol fth : ℝ) (j : ℕ)
    (hj : j % 4 = 3) (hlen : j < img.data.length)
    (ha : img.data.getD j 0 = 255) :
    (processInstant img tol fth).data.getD j 0 ≤ img.data.getD j 0 := by
  rw [processInstant_data_getD img tol fth hlen, if_pos hj, ha]
  unfold newAlpha
  split
  · split
    · norm_num
    · exact max_le (by norm_num) (min_le_left _ _)
  · exact le_rfl

/-- Witness for the amended C3: the first pixel of `flatImg` is opaque and
its output alpha (0) does not exceed its source alpha (255). -/
theorem processInstant_alpha_le_of_opaque_witness :
    (processInstant flatImg 30 1).data.getD 3 0 ≤ flatImg.data.getD 3 0 :=
  processInstant_alpha_le_of_opaque flatImg 30 1 3 (by norm_num)
    (by norm_num [flatImg]) rfl

/-- C6 is false as stated: the engine has no `InvalidImage` failure path and
performs no validation.  `mismImg` has data length 8 ≠ 1 × 1 × 4, yet
`processInstant` still produces a masked output (the second group's alpha is
rewritten from 255 to 0), and a 0 × 0 image with empty data is likewise
processed, producing an (empty) output rather than failing. -/
theorem processInstant_no_invalid_image_cex :
    mismImg.data.length ≠ mismImg.width * mismImg.height * 4 ∧
    (processInstant mismImg 30 2).data.length = 8 ∧
    mismImg.data.getD 7 0 = 255 ∧
    (processInstant mismImg 30 2).data.getD 7 0 = 0 ∧
    processInstant ⟨0, 0, []⟩ 30 2 = ⟨0, 0, []⟩ := by
  refine ⟨by norm_num [mismImg], by simp [processInstant, mismImg], rfl, ?_, ?_⟩
  · rw [processInstant_data_getD mismImg 30 2 (by norm_num [mismImg])]
    norm_num [distAt_mismImg, newAlpha]
  · simp [processInstant]

/-- C6 (amended): the Express engine performs no validation of width,
height, or data length: for every input — including zero dimensions or a
data length that does not match width × height × 4 — it produces an output
of the same width, height, and data length, processing whatever entries are
present in 4-byte strides; there is no `InvalidImage` failure. -/
theorem processInstant_total_shape (img : ImageData) (tol fth : ℝ) :
    (processInstant img tol fth).width = img.width ∧
    (processInstant img tol fth).height = img.height ∧
    (processInstant img tol fth).data.length = img.data.length := by
  exact ⟨rfl, rfl, by simp [processInstant]⟩

/-- C7: every pixel whose Euclidean RGB distance from the background
estimate is at least the tolerance keeps its source alpha unchanged. -/
theorem processInstant_far_unchanged (img : ImageData) (tol fth : ℝ) (j : ℕ)
    (hj : j % 4 = 3) (hlen : j < img.data.length)
    (hfar : tol ≤ distAt img (j - 3)) :
    (processInstant img tol fth).data.getD j 0 = img.data.getD j 0 := by
  rw [processInstant_data_getD img tol fth hlen, if_pos hj]
  unfold newAlpha
  rw [if_neg (not_lt.mpr hfar)]

/-- Witness for C7: the middle pixel of `farImg` is at distance 200 ≥ 30
from the background and keeps its source alpha 123. -/
theorem processInstant_far_unchanged_witness :
    (processInstant farImg 30 1).data.getD 7 0 = farImg.data.getD 7 0 :=
  processInstant_far_unchanged farImg 30 1 7 (by norm_num)
    (by norm_num [farImg]) (by norm_num [distAt_farImg])

/-- C8: the output buffer has the source's width, height, and data length,
and every non-alpha entry (index not ≡ 3 mod 4, i.e. the R, G, B channels)
is copied verbatim; only alpha entries are rewritten. -/
theorem processInstant_preserves_rgb (img : ImageData) (tol fth : ℝ) :
    (processInstant img tol fth).width = img.width ∧
    (processInstant img tol fth).height = img.height ∧
    (processInstant img tol fth).data.length = img.data.length ∧
    ∀ j : ℕ, j < img.data.length → j % 4 ≠ 3 →
      (processInstant img tol fth).data.getD j 0 = img.data.getD j 0 := by
  refine ⟨rfl, rfl, by simp [processInstant], fun j hlen hj => ?_⟩
  rw [processInstant_data_getD img tol fth hlen, if_neg hj]

/-- Witness for C8: the blue channel of `flatImg`'s first pixel is copied
verbatim. -/
theorem processInstant_preserves_rgb_witness :
    (processInstant flatImg 30 1).data.getD 2 0 = flatImg.data.getD 2 0 :=
  (processInstant_preserves_rgb flatImg 30 1).2.2.2 2 (by norm_num [flatImg])
    (by norm_num)

/-- C9: when the four corner reads of each channel agree on a color
(cr, cg, cb), the background estimate equals that color (arithmetic mean of
four equal values), and for tolerance > 0 every pixel whose distance from it
is strictly below tolerance / 1.5 gets output alpha exactly 0. -/
theorem processInstant_corner_bg_zero (img : ImageData) (tol fth cr cg cb : ℝ)
    (htol : 0 < tol)
    (hrc : img.data.getD ((0 * img.width + 0) * 4) 0 = cr ∧
           img.data.getD ((0 * img.width + (img.width - 1)) * 4) 0 = cr ∧
           img.data.getD (((img.height - 1) * img.width + 0) * 4) 0 = cr ∧
           img.data.getD (((img.height - 1) * img.width + (img.width - 1)) * 4) 0 = cr)
    (hgc : img.data.getD ((0 * img.width + 0) * 4 + 1) 0 = cg ∧
           img.data.getD ((0 * img.width + (img.width - 1)) * 4 + 1) 0 = cg ∧
           img.data.getD (((img.height - 1) * img.width + 0) * 4 + 1) 0 = cg ∧
           img.data.getD (((img.height - 1) * img.width + (img.width - 1)) * 4 + 1) 0 = cg)
    (hbc : img.data.getD ((0 * img.width + 0) * 4 + 2) 0 = cb ∧
           img.data.getD ((0 * img.width + (img.width - 1)) * 4 + 2) 0 = cb ∧
           img.data.getD (((img.height - 1) * img.width + 0) * 4 + 2) 0 = cb ∧
           img.data.getD (((img.height - 1) * img.width + (img.width - 1)) * 4 + 2) 0 = cb) :
    bgR img = cr ∧ bgG img = cg ∧ bgB img = cb ∧
    ∀ j : ℕ, j % 4 = 3 → j < img.data.length → distAt img (j - 3) < tol / 1.5 →
      (processInstant img tol fth).data.getD j 0 = 0 := by
  obtain ⟨h1, h2, h3, h4⟩ := hrc
  obtain ⟨h5, h6, h7, h8⟩ := hgc
  obtain ⟨h9, h10, h11, h12⟩ := hbc
  have hbgR : bgR img = cr := by unfold bgR; rw [h1, h2, h3, h4]; ring
  have hbgG : bgG img = cg := by unfold bgG; rw [h5, h6, h7, h8]; ring
  have hbgB : bgB img = cb := by unfold bgB; rw [h9, h10, h11, h12]; ring
  refine ⟨hbgR, hbgG, hbgB, fun j hj hlen hd => ?_⟩
  rw [processInstant_data_getD img tol fth hlen, if_pos hj]
  unfold newAlpha
  have hlt : distAt img (j - 3) < tol :=
    lt_of_lt_of_le hd (div_le_self htol.le (by norm_num))
  rw [if_pos hlt, if_pos hd]

/-- Witness for C9: on the all-(200,200,200) 2×2 image with tolerance 30,
the first pixel's distance is 0 < 20 and its output alpha is 0. -/
theorem processInstant_corner_bg_zero_witness :
    (processInstant flatImg 30 1).data.getD 3 0 = 0 :=
  (processInstant_corner_bg_zero flatImg 30 1 200 200 200 (by norm_num)
    ⟨rfl, rfl, rfl, rfl⟩ ⟨rfl, rfl, rfl, rfl⟩
    ⟨rfl, rfl, rfl, rfl⟩).2.2.2 3 (by norm_num) (by norm_num [flatImg])
    (by norm_num [distAt_flatImg])

/-- Metadata of a submitted browser file: name, MIME type, and byte size.
Strings are modelled as character lists. -/
structure FileMeta where
  name : List Char
  type : List Char
  size : ℕ
deriving DecidableEq

/-- The JavaScript `s.startsWith(p)` on the modelled strings. -/
def startsWithChars : List Char → List Char → Bool
  | _, [] => true
  | [], _ :: _ => false
  | c :: cs, p :: ps => c == p && startsWithChars cs ps

/-- First component of `name.split('.')` — the characters before the first
dot, or the whole name when it contains no dot. -/
def splitHeadDot : List Char → List Char
  | [] => []
  | c :: cs => if c = '.' then [] else c :: splitHeadDot cs

/-- Suggested output filename:
`file.name.split('.')[0] + '_transparent.png'`. -/
def suggestedName (name : List Char) : List Char :=
  splitHeadDot name ++ ("_transparent.png".data)

/-- Rejection message of `processFile` for a non-image MIME type. -/
def invalidTypeMsg : List Char :=
  ("Please upload a valid image file (PNG, JPG, or WebP).".data)

/-- Rejection message of `processFile` for an oversized file. -/
def tooLargeMsg : List Char :=
  ("File is too large. Please use an image smaller than 15MB.".data)

/-- Outcome of the validation prefix of `processFile`: rejected with a
message, or processing started. -/
inductive SubmitOutcome where
  | rejected (msg : List Char)
  | started
deriving DecidableEq

/-- The validation prefix of `processFile`: reject when the MIME type does
not start with "image/", then when the size exceeds 15 MB (strictly more
than `15 * 1024 * 1024` bytes); otherwise processing starts. -/
def processFileCheck (f : FileMeta) : SubmitOutcome :=
  if ¬ startsWithChars f.type ("image/".data) then .rejected invalidTypeMsg
  else if 15 * 1024 * 1024 < f.size then .rejected tooLargeMsg
  else .started

/-- A completed Job's artifact (the `ProcessedImage` interface): object-URL
handles of the original and the result, and the suggested download name.
`resultUrl := none` models the empty-string placeholder used in Express
mode before the engine reports back. -/
structure ProcessedImage where
  originalUrl : ℕ
  resultUrl : Option ℕ
  name : List Char
deriving DecidableEq

/-- Orchestrator-visible state of the single-engine app (`processFile`):
processing flag, latest error, progress, result artifact. -/
structure AppState where
  isProcessing : Bool
  error : Option (List Char)
  progress : ℕ
  result : Option ProcessedImage
deriving DecidableEq

/-- The synchronous prefix of `processFile` on the app state: on a
validation failure only the error message is set; otherwise the processing
flags are initialised and the engine is invoked. -/
def processFileStart (s : AppState) (f : FileMeta) : AppState :=
  match processFileCheck f with
  | .rejected m => { s with error := some m }
  | .started => { s with isProcessing := true, error := none, progress := 0 }

/-- C4 is false as stated: a zero-byte file whose MIME type is a recognized
image type ("image/png") passes `processFile`'s validation — processing
starts (`isProcessing` becomes true, the engine is invoked) instead of
failing fast with `InvalidInput`.  Only the MIME-type and size checks
exist; emptiness is never checked (and the two-mode app's
`handleFileChange` performs no validation at all). -/
theorem processFile_empty_file_cex :
    (⟨("a.png".data), ("image/png".data), 0⟩ : FileMeta).size = 0 ∧
    processFileCheck ⟨("a.png".data), ("image/png".data), 0⟩ = .started ∧
    (processFileStart ⟨false, none, 0, none⟩
      ⟨("a.png".data), ("image/png".data), 0⟩).isProcessing = true := by
  refine ⟨rfl, by decide, by decide⟩

/-- C4 (amended): a submitted file whose MIME type does not start with
"image/" is rejected before any processing starts — the error message is
set, the processing flag and the result artifact are unchanged, and the
engine is never invoked.  Oversized files are rejected the same way, but
zero-byte files with a recognized image type are not rejected. -/
theorem processFile_rejects_non_image (s : AppState) (f : FileMeta)
    (h : startsWithChars f.type ("image/".data) = false) :
    processFileCheck f = .rejected invalidTypeMsg ∧
    (processFileStart s f).isProcessing = s.isProcessing ∧
    (processFileStart s f).result = s.result ∧
    (processFileStart s f).error = some invalidTypeMsg := by
  have hc : processFileCheck f = .rejected invalidTypeMsg := by
    simp [processFileCheck, h]
  refine ⟨hc, ?_, ?_, ?_⟩ <;> simp [processFileStart, hc]

/-- Witness for the amended C4: a plain-text file is rejected and the state
stays idle. -/
theorem processFile_rejects_non_image_witness :
    processFileCheck ⟨("a.txt".data), ("text/plain".data), 5⟩ =
      .rejected invalidTypeMsg ∧
    (processFileStart ⟨false, none, 0, none⟩
      ⟨("a.txt".data), ("text/plain".data), 5⟩).isProcessing = false ∧
    (processFileStart ⟨false, none, 0, none⟩
      ⟨("a.txt".data), ("text/plain".data), 5⟩).result = none ∧
    (processFileStart ⟨false, none, 0, none⟩
      ⟨("a.txt".data), ("text/plain".data), 5⟩).error = some invalidTypeMsg :=
  processFile_rejects_non_image ⟨false, none, 0, none⟩
    ⟨("a.txt".data), ("text/plain".data), 5⟩ (by decide)

/-- The object-URL allocator: `URL.createObjectURL` hands out fresh numeric
handles, `URL.revokeObjectURL` removes a handle from the live set. -/
structure UrlStore where
  next : ℕ
  live : List ℕ
deriving DecidableEq

/-- Allocate a fresh object URL. -/
def createObjectURL (u : UrlStore) : ℕ × UrlStore :=
  (u.next, ⟨u.next + 1, u.next :: u.live⟩)

/-- Revoke an object URL. -/
def revokeObjectURL (u : UrlStore) (h : ℕ) : UrlStore :=
  ⟨u.next, u.live.erase h⟩

/-- State of the two-mode app: URL allocator, selected file, result
artifact, error, processing flag. -/
structure DeepAppState where
  urls : UrlStore
  selectedFile : Option FileMeta
  result : Option ProcessedImage
  error : Option (List Char)
  isProcessing : Bool
deriving DecidableEq

/-- Express-mode branch of the two-mode `handleFileChange`: stores the
file, allocates an object URL for it, and installs a result whose
`resultUrl` is the empty placeholder.  No previously held URL is revoked. -/
def handleFileChangeExpress (s : DeepAppState) (f : FileMeta) : DeepAppState :=
  let p := createObjectURL s.urls
  { s with
    urls := p.2
    selectedFile := some f
    result := some ⟨p.1, none, suggestedName f.name⟩ }

/-- `processFileDeep` when the Deep engine resolves: allocates the source
URL and then the result URL, and installs the result artifact. -/
def processFileDeepSuccess (s : DeepAppState) (f : FileMeta) : DeepAppState :=
  let p := createObjectURL s.urls
  let q := createObjectURL p.2
  { s with
    urls := q.2
    selectedFile := some f
    result := some ⟨p.1, some q.1, suggestedName f.name⟩
    error := none
    isProcessing := false }

/-- `processFileDeep` when the Deep engine rejects: the source URL has
already been allocated; the catch block only records the error — the
allocated URL is not revoked and no result is installed. -/
def processFileDeepFailure (s : DeepAppState) (f : FileMeta) : DeepAppState :=
  let p := createObjectURL s.urls
  { s with
    urls := p.2
    selectedFile := some f
    error := some ("Deep AI failed. The model may be too heavy for your browser.".data)
    isProcessing := false }

/-- URL bookkeeping of `reset`: revoke the current result's original URL
and, when its result URL is non-empty, the result URL. -/
def resetUrls (urls : UrlStore) : Option ProcessedImage → UrlStore
  | none => urls
  | some r =>
    let ua := revokeObjectURL urls r.originalUrl
    match r.resultUrl with
    | some ru => revokeObjectURL ua ru
    | none => ua

/-- `reset`: revokes the current result's URLs and clears the Job. -/
def reset (s : DeepAppState) : DeepAppState :=
  { urls := resetUrls s.urls s.result
    selectedFile := none
    result := none
    error := none
    isProcessing := s.isProcessing }

/-- A fresh app state: no URLs allocated, nothing selected. -/
def initialDeepState : DeepAppState := ⟨⟨0, []⟩, none, none, none, false⟩

/-- First test file. -/
def fileA : FileMeta := ⟨("a.png".data), ("image/png".data), 4⟩

/-- Second test file. -/
def fileB : FileMeta := ⟨("b.png".data), ("image/png".data), 4⟩

/-- C5 is false as stated: submitting a second file in Express mode
replaces the Job without revoking the first Job's source URL — handle 0
stays live while the new result references handle 1 — and a Deep-engine
failure leaves the source URL it allocated live with no owning result. -/
theorem url_release_cex :
    ((handleFileChangeExpress (handleFileChangeExpress initialDeepState fileA)
        fileB).result.map ProcessedImage.originalUrl = some 1) ∧
    0 ∈ (handleFileChangeExpress (handleFileChangeExpress initialDeepState fileA)
        fileB).urls.live ∧
    (processFileDeepFailure initialDeepState fileA).result = none ∧
    0 ∈ (processFileDeepFailure initialDeepState fileA).urls.live := by
  decide

/-- C5 (amended): on the explicit reset path the release invariant holds —
the current Job's source handle, and its result handle when present, are
removed from the live set (each was allocated once, so with distinct live
handles each is released exactly once) and the Job is discarded.  On the
other exit paths (replacement by a new submission, Deep-engine failure) no
handle is revoked. -/
theorem reset_releases_handles (s : DeepAppState) (r : ProcessedImage)
    (hres : s.result = some r) (hnd : s.urls.live.Nodup) :
    (reset s).result = none ∧
    r.originalUrl ∉ (reset s).urls.live ∧
    ∀ ru, r.resultUrl = some ru → ru ∉ (reset s).urls.live := by
  have hurls : (reset s).urls = resetUrls s.urls (some r) := by
    simp [reset, hres]
  refine ⟨rfl, ?_, ?_⟩
  · rw [hurls]
    cases hru : r.resultUrl with
    | none =>
        simp only [resetUrls, hru, revokeObjectURL]
        intro hm
        exact ((hnd.mem_erase_iff).mp hm).1 rfl
    | some ru =>
        simp only [resetUrls, hru, revokeObjectURL]
        intro hm
        exact ((hnd.mem_erase_iff).mp (List.mem_of_mem_erase hm)).1 rfl
  · intro ru hru
    rw [hurls]
    simp only [resetUrls, hru, revokeObjectURL]
    intro hm
    exact (((hnd.erase _).mem_erase_iff).mp hm).1 rfl

/-- A state holding one finished Job with source handle 0 and result
handle 1. -/
def wDeepState : DeepAppState :=
  ⟨⟨2, [1, 0]⟩, none, some ⟨0, some 1, ("a_transparent.png".data)⟩, none, false⟩

/-- Witness for the amended C5: resetting `wDeepState` revokes handles 0
and 1 and discards the Job. -/
theorem reset_releases_handles_witness :
    (reset wDeepState).result = none ∧
    (0 : ℕ) ∉ (reset wDeepState).urls.live ∧
    ∀ ru, (some 1 : Option ℕ) = some ru → ru ∉ (reset wDeepState).urls.live :=
  reset_releases_handles wDeepState ⟨0, some 1, ("a_transparent.png".data)⟩
    rfl (by decide)

/-- C10 is false as stated: for the multi-dot name "photo.final.png" the
code produces "photo_transparent.png" — the text before the FIRST dot —
rather than "photo.final_transparent.png", the basename with only the
final extension removed. -/
theorem suggestedName_multidot_cex :
    suggestedName ("photo.final.png".data) = ("photo_transparent.png".data) ∧
    suggestedName ("photo.final.png".data) ≠
      (("photo.final".data) ++ ("_transparent.png".data)) := by
  decide

theorem splitHeadDot_no_dot (l : List Char) (h : '.' ∉ l) :
    splitHeadDot l = l := by
  induction l with
  | nil => rfl
  | cons c cs ih =>
      simp only [List.mem_cons, not_or] at h
      simp only [splitHeadDot]
      rw [if_neg (fun hc => h.1 hc.symm), ih h.2]

theorem splitHeadDot_append_dot (pre post : List Char) (h : '.' ∉ pre) :
    splitHeadDot (pre ++ '.' :: post) = pre := by
  induction pre with
  | nil => simp [splitHeadDot]
  | cons c cs ih =>
      simp only [List.mem_cons, not_or] at h
      have hstep : splitHeadDot ((c :: cs) ++ '.' :: post) =
          if c = '.' then [] else c :: splitHeadDot (cs ++ '.' :: post) := rfl
      rw [hstep, if_neg (fun hc => h.1 hc.symm), ih h.2]

/-- C10 (amended): the suggested output filename equals the portion of the
original file name before the FIRST dot — the whole name when it contains
no dot — concatenated with "_transparent.png". -/
theorem suggestedName_first_dot (pre post : List Char) (hpre : '.' ∉ pre) :
    suggestedName (pre ++ '.' :: post) = pre ++ ("_transparent.png".data) ∧
    suggestedName pre = pre ++ ("_transparent.png".data) := by
  unfold suggestedName
  rw [splitHeadDot_append_dot pre post hpre, splitHeadDot_no_dot pre hpre]
  exact ⟨rfl, rfl⟩

/-- Witness for the amended C10: "img.png" maps to "img_transparent.png",
and the dotless "img" to "img_transparent.png" as well. -/
theorem suggestedName_first_dot_witness :
    suggestedName (("img".data) ++ '.' :: ("png".data)) =
      ("img".data) ++ ("_transparent.png".data) ∧
    suggestedName ("img".data) = ("img".data) ++ ("_transparent.png".data) :=
  suggestedName_first_dot ("img".data) ("png".data) (by decide)
